import Mathlib

/-!
Shallow embedding of `text_statistics.py` (Teifion/text_statistics).

Texts and words are modelled as `List Char`.  The Python `re` patterns used by
the source are small and anchored, so each one is translated into an explicit
boolean scanner over the character list; every scanner is named after the rule
it implements and documented with the pattern it came from.

Numbers: the source computes with Python `Decimal`.  Counts are `Nat`/`Int`;
the formula layer is modelled over `ℚ` with the source's decimal literals taken
at their literal rational values.  Python division raises `DivisionByZero` on a
zero divisor, so every division taken from the source goes through `pydiv`,
which returns `none` in that case, and the formula functions return `Option`.
A second, CPython-faithful model of `flesch_kincaid_reading_ease` is also
provided (`flesch_kincaid_reading_ease_dec`): there each numeric literal is
first rounded to the nearest IEEE binary64 value, exactly as `Decimal(206.835)`
does, and every `Decimal` operation rounds its exact result to 28 significant
digits (the default context precision) with round-half-even.
-/

namespace TextStatistics

/-- Uppercase ASCII letter, the character class A to Z used by the source. -/
def isUpAZ (c : Char) : Bool := 65 ≤ c.toNat && c.toNat ≤ 90

/-- Lowercase ASCII letter, the character class a to z; this is the class kept
by the pattern bound to the name re_syllable_non_word_chars in the source. -/
def isLowAZ (c : Char) : Bool := 97 ≤ c.toNat && c.toNat ≤ 122

/-- ASCII letter or digit: the class kept by the source's
re_letters_and_digits pattern, which deletes every other character. -/
def isAlnumAZ09 (c : Char) : Bool :=
  (65 ≤ c.toNat && c.toNat ≤ 90) || (97 ≤ c.toNat && c.toNat ≤ 122) ||
    (48 ≤ c.toNat && c.toNat ≤ 57)

/-- ASCII lowercasing, modelling Python str.lower on the ASCII range the
source's character classes subsequently keep. -/
def toLowerAZ (c : Char) : Char :=
  if 65 ≤ c.toNat && c.toNat ≤ 90 then Char.ofNat (c.toNat + 32) else c

/-- Sentence terminator characters counted by the source after removing the
pattern re_count_sentences, which deletes every character that is not a
period, exclamation mark or question mark. -/
def isTerm (c : Char) : Bool := c == '.' || c == '!' || c == '?'

/-- Python text.split with separator a single space: one part per maximal gap,
so the result always has (number of spaces) + 1 elements and is never empty;
splitting the empty string gives a list holding one empty word. -/
def splitSp : List Char → List (List Char)
  | [] => [[]]
  | c :: cs =>
    if c = ' ' then [] :: splitSp cs
    else
      match splitSp cs with
      | [] => [[c]]
      | w :: ws => (c :: w) :: ws

/-- Left-to-right non-overlapping deletion of the pattern consisting of an
uppercase letter, a period, an uppercase letter and a period (initials such
as U.K.), as performed by the first member of re_remove_fake_sentences. -/
def removeInitials : List Char → List Char
  | a :: '.' :: b :: '.' :: rest =>
    if isUpAZ a && isUpAZ b then removeInitials rest
    else a :: removeInitials ('.' :: b :: '.' :: rest)
  | a :: rest => a :: removeInitials rest
  | [] => []

/-- Left-to-right non-overlapping deletion of the literal text Mr followed by
a period, the second member of re_remove_fake_sentences. -/
def removeMr : List Char → List Char
  | 'M' :: 'r' :: '.' :: rest => removeMr rest
  | a :: rest => a :: removeMr rest
  | [] => []

/-- Source function count_sentences: 0 for empty text, otherwise initials and
Mr-period abbreviations are deleted and the terminator characters of the rest
are counted, floored at 1. -/
def count_sentences (t : List Char) : ℕ :=
  if t = [] then 0
  else max 1 ((removeMr (removeInitials t)).filter isTerm).length

/-- Source function count_words: 0 for empty text, otherwise the source
deletes every non-space character and returns 1 plus the length of what is
left, that is 1 plus the number of space characters. -/
def count_words (t : List Char) : ℕ :=
  if t = [] then 0 else 1 + (t.filter fun c => c == ' ').length

/-- Source function clean_text: the historical cleanup pass is disabled and
the function returns its input unchanged. -/
def clean_text (t : List Char) : List Char := t

/-- Problem-word table of the syllable estimator, consulted on the cleaned
word before any rule fires. -/
def problemLookup (t : List Char) : Option ℤ :=
  if t = ['s', 'i', 'm', 'i', 'l', 'e'] then some 3
  else if t = ['f', 'o', 'r', 'e', 'v', 'e', 'r'] then some 3
  else if t = ['s', 'h', 'o', 'r', 'e', 'l', 'i', 'n', 'e'] then some 2
  else none

/-- Strip a literal prefix once, reporting 1 if it was present: the behaviour
of findall plus sub for a caret-anchored literal pattern. -/
def stripPre (p t : List Char) : List Char × ℕ :=
  if p.isPrefixOf t then (t.drop p.length, 1) else (t, 0)

/-- Strip a literal suffix once, reporting 1 if it was present: the behaviour
of findall plus sub for a dollar-anchored literal pattern. -/
def stripSuf (s t : List Char) : List Char × ℕ :=
  if s.isSuffixOf t then (t.take (t.length - s.length), 1) else (t, 0)

/-- Strip whichever of two literal suffixes matches, preferring the longer:
the behaviour of a dollar-anchored pattern with a greedy optional last letter,
such as the source's er-optional-s and ing-optional-s patterns. -/
def stripSuf2 (a b t : List Char) : List Char × ℕ :=
  if a.isSuffixOf t then (t.take (t.length - a.length), 1) else stripSuf b t

/-- Sequential application of the seven single-syllable affix patterns of the
source (leading un, leading fore, trailing ly, less, ful, er or ers, ing or
ings), each applied to the text left by the previous one, returning the
stripped word and the number of affixes removed. -/
def stripAffixes (t0 : List Char) : List Char × ℕ :=
  let r1 := stripPre ['u', 'n'] t0
  let r2 := stripPre ['f', 'o', 'r', 'e'] r1.1
  let r3 := stripSuf ['l', 'y'] r2.1
  let r4 := stripSuf ['l', 'e', 's', 's'] r3.1
  let r5 := stripSuf ['f', 'u', 'l'] r4.1
  let r6 := stripSuf2 ['e', 'r', 's'] ['e', 'r'] r5.1
  let r7 := stripSuf2 ['i', 'n', 'g', 's'] ['i', 'n', 'g'] r6.1
  (r7.1, r1.2 + r2.2 + r3.2 + r4.2 + r5.2 + r6.2 + r7.2)

/-- Count of maximal runs of vowel letters (a, e, i, o, u, y): the number of
non-empty fragments produced by the source when it splits the word on runs of
non-vowel characters.  The flag records whether the previous character was a
vowel. -/
def vowelRuns : List Char → Bool → ℕ
  | [], _ => 0
  | c :: cs, prev =>
    if ['a', 'e', 'i', 'o', 'u', 'y'].contains c then
      (if prev then 0 else 1) + vowelRuns cs true
    else vowelRuns cs false

/-- Number of candidate vowel-cluster syllable nuclei of a word. -/
def vowelGroups (t : List Char) : ℕ := vowelRuns t false

/-- Predicate list matching: the characters of the list satisfy the
predicates in order (the list may be longer than the predicate list). -/
def startsWithPreds : List (Char → Bool) → List Char → Bool
  | [], _ => true
  | _ :: _, [] => false
  | p :: ps, c :: cs => p c && startsWithPreds ps cs

/-- Existence of a match of the predicate sequence anywhere in the list:
models an unanchored regex search. -/
def scanWin (ps : List (Char → Bool)) : List Char → Bool
  | [] => startsWithPreds ps []
  | c :: cs => startsWithPreds ps (c :: cs) || scanWin ps cs

/-- Match at the end of the word: the predicates are listed from the last
character backwards, modelling a dollar-anchored regex search. -/
def matchEnd (ps : List (Char → Bool)) (t : List Char) : Bool :=
  startsWithPreds ps t.reverse

/-- Predicate for one given character. -/
def pEq (a : Char) : Char → Bool := fun c => c == a

/-- Predicate for membership in a character class. -/
def pIn (s : List Char) : Char → Bool := fun c => s.contains c

/-- Predicate for a negated character class. -/
def pNotIn (s : List Char) : Char → Bool := fun c => !(s.contains c)

/-- Predicate accepting any character (the regex dot; the words scanned here
contain no newline). -/
def pAny : Char → Bool := fun _ => true

/-- Literal character sequence as a predicate list. -/
def pLits (s : List Char) : List (Char → Bool) := s.map pEq

/-- The six vowel letters including y. -/
def vowelsY : List Char := ['a', 'e', 'i', 'o', 'u', 'y']

/-- Number of members of the source's sub_syllables pattern tuple that match
the stripped, letters-only word; each match subtracts one syllable.  The
fifteen patterns are translated in order. -/
def subCount (t : List Char) : ℕ :=
  List.length (List.filter (fun b => b)
    [ -- cial anywhere
      scanWin (pLits ['c', 'i', 'a', 'l']) t,
      -- tia anywhere
      scanWin (pLits ['t', 'i', 'a']) t,
      -- cius anywhere
      scanWin (pLits ['c', 'i', 'u', 's']) t,
      -- cious anywhere
      scanWin (pLits ['c', 'i', 'o', 'u', 's']) t,
      -- giu anywhere
      scanWin (pLits ['g', 'i', 'u']) t,
      -- ion anywhere
      scanWin (pLits ['i', 'o', 'n']) t,
      -- iou anywhere
      scanWin (pLits ['i', 'o', 'u']) t,
      -- sia at the end
      matchEnd (pLits ['a', 'i', 's']) t,
      -- two or more characters outside a e i u o y t, then ed, at the end
      matchEnd [pEq 'd', pEq 'e', pNotIn ['a', 'e', 'i', 'u', 'o', 'y', 't'],
        pNotIn ['a', 'e', 'i', 'u', 'o', 'y', 't']] t,
      -- any character then ely at the end
      matchEnd [pEq 'y', pEq 'l', pEq 'e', pAny] t,
      -- c or g, optional h, e, optional r s or d, at the end
      (matchEnd [pEq 'e', pIn ['c', 'g']] t ||
        matchEnd [pEq 'e', pEq 'h', pIn ['c', 'g']] t ||
        matchEnd [pIn ['r', 's', 'd'], pEq 'e', pIn ['c', 'g']] t ||
        matchEnd [pIn ['r', 's', 'd'], pEq 'e', pEq 'h', pIn ['c', 'g']] t),
      -- rve with optional d at the end
      (matchEnd (pLits ['e', 'v', 'r']) t ||
        matchEnd (pLits ['d', 'e', 'v', 'r']) t),
      -- vowel, d or t, e, optional s, at the end
      (matchEnd [pEq 'e', pIn ['d', 't'], pIn vowelsY] t ||
        matchEnd [pEq 's', pEq 'e', pIn ['d', 't'], pIn vowelsY] t),
      -- vowel, a character outside vowels d t, e, optional r s or d, at the end
      (matchEnd [pEq 'e', pNotIn ['a', 'e', 'i', 'o', 'u', 'y', 'd', 't'],
          pIn vowelsY] t ||
        matchEnd [pIn ['r', 's', 'd'],
          pEq 'e', pNotIn ['a', 'e', 'i', 'o', 'u', 'y', 'd', 't'],
          pIn vowelsY] t),
      -- vowel then rse at the end
      matchEnd [pEq 'e', pEq 's', pEq 'r', pIn vowelsY] t ])

/-- Match of the backreference pattern: a non-vowel character occurring twice
then l at the end of the word. -/
def dblConsL (t : List Char) : Bool :=
  match t.reverse with
  | 'l' :: x :: y :: _ => x == y && !(vowelsY.contains x)
  | _ => false

/-- Number of members of the source's add_syllables pattern tuple that match
the stripped, letters-only word; each match adds one syllable.  The seventeen
patterns are translated in order. -/
def addCount (t : List Char) : ℕ :=
  List.length (List.filter (fun b => b)
    [ -- ia anywhere
      scanWin (pLits ['i', 'a']) t,
      -- riet anywhere
      scanWin (pLits ['r', 'i', 'e', 't']) t,
      -- dien anywhere
      scanWin (pLits ['d', 'i', 'e', 'n']) t,
      -- iu anywhere
      scanWin (pLits ['i', 'u']) t,
      -- io anywhere
      scanWin (pLits ['i', 'o']) t,
      -- ii anywhere
      scanWin (pLits ['i', 'i']) t,
      -- a vowel or m, then bl, at the end
      matchEnd [pEq 'l', pEq 'b', pIn ['a', 'e', 'i', 'o', 'u', 'y', 'm']] t,
      -- three consecutive characters among a e i o u
      scanWin [pIn ['a', 'e', 'i', 'o', 'u'], pIn ['a', 'e', 'i', 'o', 'u'],
        pIn ['a', 'e', 'i', 'o', 'u']] t,
      -- mc at the start
      startsWithPreds (pLits ['m', 'c']) t,
      -- ism at the end
      matchEnd (pLits ['m', 's', 'i']) t,
      -- a doubled non-vowel character then l at the end
      dblConsL t,
      -- a character other than l, then lien, anywhere
      scanWin [fun c => !(c == 'l'), pEq 'l', pEq 'i', pEq 'e', pEq 'n'] t,
      -- coa then one of d g l x then any character, at the start
      startsWithPreds [pEq 'c', pEq 'o', pEq 'a', pIn ['d', 'g', 'l', 'x'],
        pAny] t,
      -- a character outside g q, then ua, then a character outside a u i e o
      scanWin [pNotIn ['g', 'q'], pEq 'u', pEq 'a',
        pNotIn ['a', 'u', 'i', 'e', 'o']] t,
      -- dnt at the end
      matchEnd (pLits ['t', 'n', 'd']) t,
      -- uity at the end
      matchEnd (pLits ['y', 't', 'i', 'u']) t,
      -- ie then r or st at the end
      (matchEnd (pLits ['r', 'e', 'i']) t ||
        matchEnd (pLits ['t', 's', 'e', 'i']) t) ])

/-- Cleaning step of the syllable estimator: lowercase the word and keep only
ASCII letters and digits. -/
def cleanWord (w : List Char) : List Char :=
  (w.map toLowerAZ).filter isAlnumAZ09

/-- Rule part of the syllable estimator, applied when the cleaned word is not
in the problem-word table: strip affixes, then strip the remaining non-letter
characters, count vowel clusters, apply the subtractive and additive
corrections, and clamp an exact zero to 1.  A negative total is returned as
is: the clamp in the source tests equality with zero only. -/
def syllableRules (t : List Char) : ℤ :=
  let p := stripAffixes t
  let t2 := p.1.filter isLowAZ
  let base : ℤ := (vowelGroups t2 : ℤ) + (p.2 : ℤ) - (subCount t2 : ℤ) +
    (addCount t2 : ℤ)
  if base = 0 then 1 else base

/-- Source function syllable_count: 0 for the empty word, the table value for
a problem word, otherwise the rule-based estimate. -/
def syllable_count (w : List Char) : ℤ :=
  if w = [] then 0
  else
    match problemLookup (cleanWord w) with
    | some n => n
    | none => syllableRules (cleanWord w)

/-- Source function count_syllables: split the text on single spaces and sum
the per-word syllable estimates. -/
def count_syllables (t : List Char) : ℤ :=
  ((splitSp t).map syllable_count).sum

/-- Division as Python performs it: a zero divisor raises, modelled as none. -/
def pydiv (a b : ℚ) : Option ℚ := if b = 0 then none else some (a / b)

/-- Source function count_complex_words: the number of words of the
space-split text whose syllable estimate is at least 3, divided by the number
of words of the split.  The result is a ratio, not a count. -/
def count_complex_words (t : List Char) : Option ℚ :=
  let words := splitSp t
  let long_words := (words.filter fun w => 3 ≤ count_syllables w).length
  pydiv (long_words : ℚ) (words.length : ℚ)

/-- Modelled from the spec's words, for comparison with the source: the
number of words (split on single spaces) whose estimated syllable count is 3
or greater, as a count rather than a ratio. -/
def complexWordCount (t : List Char) : ℕ :=
  ((splitSp t).filter fun w => 3 ≤ count_syllables w).length

/-- Source function flesch_kincaid_reading_ease, with the decimal literals
taken at their literal rational values: clean the text, compute words,
sentences and syllables, and evaluate
206.835 - 1.015 (words over sentences) - 84.6 (syllables over words). -/
def flesch_kincaid_reading_ease (t0 : List Char) : Option ℚ :=
  let t := clean_text t0
  let words : ℚ := count_words t
  let sentences : ℚ := count_sentences t
  let syllables : ℚ := count_syllables t
  (pydiv words sentences).bind fun words_over_sentences =>
  (pydiv syllables words).map fun syllables_over_words =>
  206.835 - 1.015 * words_over_sentences - 84.6 * syllables_over_words

/-- Source function gunning_fog_score: clean the text, compute words,
sentences and the complex-word value returned by count_complex_words (a
ratio), and evaluate 0.4 ((words over sentences) + 100 (that value over
words)). -/
def gunning_fog_score (t0 : List Char) : Option ℚ :=
  let t := clean_text t0
  let words : ℚ := count_words t
  let sentences : ℚ := count_sentences t
  (count_complex_words t).bind fun complex_words =>
  (pydiv words sentences).bind fun words_over_sentences =>
  (pydiv complex_words words).map fun complex_over_normal =>
  0.4 * (words_over_sentences + 100 * complex_over_normal)

/-- Radicand of the source function smog_index: the value returned by
count_complex_words (a ratio) times 30 over sentences, plus 3.1291. -/
def smog_radicand (t0 : List Char) : Option ℚ :=
  let t := clean_text t0
  let sentences : ℚ := count_sentences t
  (count_complex_words t).bind fun polysyllables =>
  (pydiv 30 sentences).map fun d =>
  polysyllables * d + 3.1291

/-- Source function smog_index: 1.043 times the square root of the radicand
above.  The square root is real, hence this definition lives in ℝ. -/
noncomputable def smog_index (t : List Char) : Option ℝ :=
  (smog_radicand t).map fun r : ℚ => (1.043 : ℝ) * Real.sqrt (r : ℝ)

/-- Source function average_words_per_sentence: unconditionally raises, here
an error value; it never produces a score. -/
def average_words_per_sentence (_t : List Char) : Except String ℚ :=
  Except.error "Not implemented"

/-! CPython-faithful decimal model, used for the end-to-end example claim.
Python builds the constants with Decimal applied to a float literal, so each
constant is the nearest IEEE binary64 value of the literal, not the literal
itself, and every Decimal operation rounds its exact result to 28 significant
digits (the default context precision) with round-half-even.  The model is
written over plain integers (a mantissa and a power-of-ten scale) so that it
evaluates inside the kernel. -/

/-- A decimal number: the value is the mantissa divided by ten to the scale. -/
structure Dec where
  m : ℤ
  e : ℕ
  deriving DecidableEq, Repr

/-- Rational value of a decimal number. -/
def Dec.toRat (x : Dec) : ℚ := (x.m : ℚ) / 10 ^ x.e

/-- Base-b integer logarithm by bounded recursion (the bound 200 covers every
number arising in the decimal computations here). -/
def natLogAux (b : ℕ) : ℕ → ℕ → ℕ
  | 0, _ => 0
  | f + 1, n => if n < b then 0 else natLogAux b f (n / b) + 1

/-- Floor of the base-b logarithm for the magnitudes used here. -/
def natLog (b n : ℕ) : ℕ := natLogAux b 200 n

/-- Number of decimal digits of a natural number (1 for zero). -/
def digitsOf (n : ℕ) : ℕ := natLog 10 n + 1

/-- Round the fraction n over d (d positive) to the nearest integer, ties to
even: the ROUND_HALF_EVEN rule of the default Decimal context. -/
def roundFrac (n d : ℤ) : ℤ :=
  let f := Int.fdiv n d
  let r := n - f * d
  if 2 * r < d then f
  else if d < 2 * r then f + 1
  else if f % 2 = 0 then f else f + 1

/-- Round a decimal number to 28 significant digits, ties to even: the
rounding the default Decimal context applies to every exact operation
result. -/
def Dec.round28 (x : Dec) : Dec :=
  if x.m = 0 then ⟨0, 0⟩
  else
    let digits := digitsOf x.m.natAbs
    if digits ≤ 28 then x
    else
      let drop := digits - 28
      if drop ≤ x.e then ⟨roundFrac x.m ((10 : ℤ) ^ drop), x.e - drop⟩
      else ⟨roundFrac x.m ((10 : ℤ) ^ drop) * (10 : ℤ) ^ (drop - x.e), 0⟩

/-- Decimal subtraction at the default context precision of 28. -/
def Dec.sub (a b : Dec) : Dec :=
  Dec.round28 ⟨a.m * (10 : ℤ) ^ b.e - b.m * (10 : ℤ) ^ a.e, a.e + b.e⟩

/-- Decimal multiplication at the default context precision of 28. -/
def Dec.mul (a b : Dec) : Dec :=
  Dec.round28 ⟨a.m * b.m, a.e + b.e⟩

/-- Decimal division of an integer by a natural number, rounded to 28
significant digits with ties to even; a zero divisor raises, modelled as
none.  This is the only shape of division the formula needs: both operands
are integer-valued Decimals. -/
def decDivInt (a : ℤ) (b : ℕ) : Option Dec :=
  if b = 0 then none
  else if a = 0 then some ⟨0, 0⟩
  else
    let A := a.natAbs
    let e0 : ℤ := (digitsOf A : ℤ) - (digitsOf b : ℤ)
    -- whether ten to the e0 is at most the absolute value of the quotient
    let geTen : Bool :=
      if 0 ≤ e0 then b * 10 ^ e0.toNat ≤ A else b ≤ A * 10 ^ (-e0).toNat
    let e : ℤ := if geTen then e0 + 1 else e0
    let k : ℤ := 28 - e
    if 0 ≤ k then some ⟨roundFrac (a * (10 : ℤ) ^ k.toNat) (b : ℤ), k.toNat⟩
    else some ⟨roundFrac a ((b : ℤ) * (10 : ℤ) ^ (-k).toNat) * (10 : ℤ) ^ (-k).toNat, 0⟩

/-- Decimal value of the nearest IEEE binary64 number to n divided by ten to
the s: the value Decimal receives when the source writes Decimal of a float
literal.  Defined for literals whose value is at least 1 and below 2 to the
53, which covers the three constants of the Flesch-Kincaid formula.  The
mantissa is rounded to 53 bits with ties to even, and a binary64 value M
times 2 to the (p - 52) is re-expressed exactly in decimal as M times 5 to
the (52 - p) over 10 to the (52 - p). -/
def floatLit (n s : ℕ) : Dec :=
  let p := natLog 2 (n / 10 ^ s)
  let d52 := 52 - p
  let M := roundFrac ((n : ℤ) * 2 ^ d52) ((10 : ℤ) ^ s)
  ⟨M * (5 : ℤ) ^ d52, d52⟩

/-- CPython-faithful model of flesch_kincaid_reading_ease: the constants are
the binary64 values of the float literals 206.835, 1.015 and 84.6 (as
Decimal of a float literal builds them) and every operation rounds to 28
significant digits, ties to even. -/
def flesch_kincaid_reading_ease_dec (t0 : List Char) : Option Dec :=
  let t := clean_text t0
  let words := count_words t
  let sentences := count_sentences t
  let syllables := count_syllables t
  (decDivInt (words : ℤ) sentences).bind fun words_over_sentences =>
  (decDivInt syllables words).map fun syllables_over_words =>
  Dec.sub
    (Dec.sub (floatLit 206835 3) (Dec.mul (floatLit 1015 3) words_over_sentences))
    (Dec.mul (floatLit 846 1) syllables_over_words)

/-! Helper lemmas shared by the claim theorems. -/

theorem splitSp_ne_nil (t : List Char) : splitSp t ≠ [] := by
  induction t with
  | nil => simp [splitSp]
  | cons c cs ih =>
    by_cases hc : c = ' '
    · simp [splitSp, hc]
    · simp only [splitSp, if_neg hc]
      cases h : splitSp cs with
      | nil => simp
      | cons w ws => simp

theorem splitSp_length (t : List Char) :
    (splitSp t).length = (t.filter fun c => c == ' ').length + 1 := by
  induction t with
  | nil => simp [splitSp]
  | cons c cs ih =>
    by_cases hc : c = ' '
    · subst hc
      have hstep : splitSp (' ' :: cs) = [] :: splitSp cs := by simp [splitSp]
      rw [hstep]
      simp only [List.length_cons, ih, List.filter_cons]
      simp
    · simp only [splitSp, if_neg hc]
      cases h : splitSp cs with
      | nil => exact absurd h (splitSp_ne_nil cs)
      | cons w ws =>
        rw [h] at ih
        simp only [List.length_cons] at ih ⊢
        have hf : (c == ' ') = false := by simp [hc]
        simp [List.filter_cons, hf]
        omega

theorem pydiv_of_ne (a b : ℚ) (h : b ≠ 0) : pydiv a b = some (a / b) := by
  simp [pydiv, h]

theorem count_words_pos (t : List Char) (ht : t ≠ []) : 0 < count_words t := by
  simp [count_words, ht]

theorem count_sentences_pos (t : List Char) (ht : t ≠ []) : 0 < count_sentences t := by
  simp [count_sentences, ht]

theorem splitSp_length_eq_count_words (t : List Char) (ht : t ≠ []) :
    (splitSp t).length = count_words t := by
  rw [splitSp_length]
  simp [count_words, ht]
  omega

theorem count_complex_words_eq (t : List Char) :
    count_complex_words t =
      some ((complexWordCount t : ℚ) / ((splitSp t).length : ℚ)) := by
  have hlen : (splitSp t).length ≠ 0 := by
    rw [splitSp_length]; omega
  have h : ((splitSp t).length : ℚ) ≠ 0 := Nat.cast_ne_zero.mpr hlen
  simp [count_complex_words, complexWordCount, pydiv, h]

theorem problemLookup_ne_zero (t : List Char) (n : ℤ) (h : problemLookup t = some n) :
    n ≠ 0 := by
  unfold problemLookup at h
  split_ifs at h <;> simp_all <;> omega

/-! Claim theorems. -/

/-- Claim C1, counterexample: on the text "beautiful beautiful." the counts
are 2 words, 1 sentence and 2 complex words, yet gunning_fog_score returns
20.8 and not the 40.8 the count-based formula of the claim gives, because the
source inserts the complex-word ratio, not the complex-word count, into the
numerator. -/
theorem gunning_fog_count_formula_fails :
    count_words ("beautiful beautiful.".data) = 2 ∧
    count_sentences ("beautiful beautiful.".data) = 1 ∧
    complexWordCount ("beautiful beautiful.".data) = 2 ∧
    gunning_fog_score ("beautiful beautiful.".data) = some (20.8 : ℚ) ∧
    gunning_fog_score ("beautiful beautiful.".data) ≠
      some ((0.4 : ℚ) * ((count_words ("beautiful beautiful.".data) : ℚ) /
          (count_sentences ("beautiful beautiful.".data) : ℚ) +
        100 * ((complexWordCount ("beautiful beautiful.".data) : ℚ) /
          (count_words ("beautiful beautiful.".data) : ℚ)))) := by
  have h1 : ((splitSp ("beautiful beautiful.".data)).filter
      fun w => 3 ≤ count_syllables w).length = 2 := by decide
  have h2 : (splitSp ("beautiful beautiful.".data)).length = 2 := by decide
  have h3 : count_words ("beautiful beautiful.".data) = 2 := by decide
  have h4 : count_sentences ("beautiful beautiful.".data) = 1 := by decide
  have h1' : complexWordCount ("beautiful beautiful.".data) = 2 := h1
  have hv : gunning_fog_score ("beautiful beautiful.".data) = some (20.8 : ℚ) := by
    simp only [gunning_fog_score, count_complex_words, clean_text, h1, h2, h3, h4]
    norm_num [pydiv]
  refine ⟨h3, h4, h1', hv, ?_⟩
  rw [hv, h3, h4, h1']
  intro hEq
  rw [Option.some.injEq] at hEq
  push_cast at hEq
  norm_num at hEq

/-- Claim C1, amended: gunning_fog_score equals
0.4 ((words over sentences) + 100 (complexRatio over words)) where
complexRatio is the complex-word count divided by the word count — the value
count_complex_words returns — so the complex-word count is divided by the
word count twice. -/
theorem gunning_fog_uses_complex_fraction (t : List Char) (ht : t ≠ []) :
    gunning_fog_score t =
      some ((0.4 : ℚ) * ((count_words t : ℚ) / (count_sentences t : ℚ) +
        100 * ((complexWordCount t : ℚ) / (count_words t : ℚ) / (count_words t : ℚ)))) := by
  have hw0 : 0 < count_words t := count_words_pos t ht
  have hs0 : 0 < count_sentences t := count_sentences_pos t ht
  have hw : (count_words t : ℚ) ≠ 0 := Nat.cast_ne_zero.mpr (by omega)
  have hs : (count_sentences t : ℚ) ≠ 0 := Nat.cast_ne_zero.mpr (by omega)
  have hc : count_complex_words t =
      some ((complexWordCount t : ℚ) / (count_words t : ℚ)) := by
    rw [count_complex_words_eq, splitSp_length_eq_count_words t ht]
  simp only [gunning_fog_score, clean_text]
  rw [hc, pydiv_of_ne _ _ hs]
  simp only [Option.bind]
  rw [pydiv_of_ne _ _ hw]
  simp only [Option.map]

/-- Witness for the amended claim C1 at the one-letter text a. -/
theorem gunning_fog_uses_complex_fraction_witness :
    "a".data ≠ [] ∧
    gunning_fog_score ("a".data) =
      some ((0.4 : ℚ) * ((count_words ("a".data) : ℚ) / (count_sentences ("a".data) : ℚ) +
        100 * ((complexWordCount ("a".data) : ℚ) / (count_words ("a".data) : ℚ) /
          (count_words ("a".data) : ℚ)))) :=
  ⟨by decide, gunning_fog_uses_complex_fraction _ (by decide)⟩

/-- Claim C2, counterexample: on the text "beautiful cat." there is 1 complex
word and 1 sentence, yet smog_index does not equal the count-based formula of
the claim: the source passes the complex-word ratio (here one half), so the
radicand is 18.1291 rather than the claimed 33.1291. -/
theorem smog_count_formula_fails :
    complexWordCount ("beautiful cat.".data) = 1 ∧
    count_sentences ("beautiful cat.".data) = 1 ∧
    smog_index ("beautiful cat.".data) ≠
      some ((1.043 : ℝ) * Real.sqrt ((complexWordCount ("beautiful cat.".data) : ℝ) *
        (30 / (count_sentences ("beautiful cat.".data) : ℝ)) + 3.1291)) := by
  have h1 : ((splitSp ("beautiful cat.".data)).filter
      fun w => 3 ≤ count_syllables w).length = 1 := by decide
  have h2 : (splitSp ("beautiful cat.".data)).length = 2 := by decide
  have h4 : count_sentences ("beautiful cat.".data) = 1 := by decide
  have h1' : complexWordCount ("beautiful cat.".data) = 1 := h1
  have hrad : smog_radicand ("beautiful cat.".data) = some (181291 / 10000 : ℚ) := by
    simp only [smog_radicand, count_complex_words, clean_text, h1, h2, h4]
    norm_num [pydiv]
  refine ⟨h1', h4, ?_⟩
  rw [h1', h4]
  simp only [smog_index, hrad, Option.map_some']
  intro hEq
  rw [Option.some.injEq] at hEq
  have hA : (((181291 : ℚ) / 10000 : ℚ) : ℝ) = 181291 / 10000 := by push_cast; ring
  have hB : (((1 : ℕ) : ℝ) * (30 / ((1 : ℕ) : ℝ)) + 3.1291 : ℝ) = 331291 / 10000 := by
    push_cast; norm_num
  rw [hA, hB] at hEq
  have hlt : Real.sqrt (181291 / 10000) < Real.sqrt (331291 / 10000) :=
    Real.sqrt_lt_sqrt (by norm_num) (by norm_num)
  have hmul : (1.043 : ℝ) * Real.sqrt (181291 / 10000) <
      (1.043 : ℝ) * Real.sqrt (331291 / 10000) :=
    mul_lt_mul_of_pos_left hlt (by norm_num)
  exact absurd hEq (ne_of_lt hmul)

/-- Claim C2, amended: smog_index equals 1.043 times the square root of
polysyllables times (30 over sentences) plus 3.1291, where polysyllables is
the complex-word ratio (count over words) returned by count_complex_words,
not the complex-word count. -/
theorem smog_uses_complex_fraction (t : List Char) (ht : t ≠ []) :
    smog_index t = some ((1.043 : ℝ) *
      Real.sqrt ((complexWordCount t : ℝ) / (count_words t : ℝ) *
        (30 / (count_sentences t : ℝ)) + 3.1291)) := by
  have hw0 : 0 < count_words t := count_words_pos t ht
  have hs0 : 0 < count_sentences t := count_sentences_pos t ht
  have hw : (count_words t : ℚ) ≠ 0 := Nat.cast_ne_zero.mpr (by omega)
  have hs : (count_sentences t : ℚ) ≠ 0 := Nat.cast_ne_zero.mpr (by omega)
  have hc : count_complex_words t =
      some ((complexWordCount t : ℚ) / (count_words t : ℚ)) := by
    rw [count_complex_words_eq, splitSp_length_eq_count_words t ht]
  have hrad : smog_radicand t = some ((complexWordCount t : ℚ) / (count_words t : ℚ) *
      (30 / (count_sentences t : ℚ)) + 3.1291) := by
    simp only [smog_radicand, clean_text]
    rw [hc]
    simp only [Option.bind]
    rw [pydiv_of_ne _ _ hs]
    simp only [Option.map]
  simp only [smog_index, hrad, Option.map_some']
  have hcast : (((complexWordCount t : ℚ) / (count_words t : ℚ) *
      (30 / (count_sentences t : ℚ)) + 3.1291 : ℚ) : ℝ) =
      (complexWordCount t : ℝ) / (count_words t : ℝ) *
        (30 / (count_sentences t : ℝ)) + 3.1291 := by
    push_cast; ring
  rw [hcast]

/-- Witness for the amended claim C2 at the one-letter text a. -/
theorem smog_uses_complex_fraction_witness :
    "a".data ≠ [] ∧
    smog_index ("a".data) = some ((1.043 : ℝ) *
      Real.sqrt ((complexWordCount ("a".data) : ℝ) / (count_words ("a".data) : ℝ) *
        (30 / (count_sentences ("a".data) : ℝ)) + 3.1291)) :=
  ⟨by decide, smog_uses_complex_fraction _ (by decide)⟩

/-- Claim C3, counterexample: the word "ched" is non-empty after cleaning but
its estimated syllable count is -1: one vowel cluster, no affixes, and two
subtractive patterns match (the consonant-consonant-ed ending and the
c-h-e-d ending), while the final clamp only repairs an exact zero. -/
theorem syllable_count_ched_negative :
    cleanWord ("ched".data) ≠ [] ∧ syllable_count ("ched".data) = -1 := by
  decide

/-- Claim C3, amended: for every word that is non-empty after cleaning,
syllable_count returns a nonzero integer; the result is at least 1 unless
subtractive corrections outnumber the vowel clusters, affixes and additive
corrections, in which case a negative value is returned. -/
theorem syllable_count_nonzero (w : List Char) (h : cleanWord w ≠ []) :
    syllable_count w ≠ 0 := by
  have hw : w ≠ [] := by
    rintro rfl
    exact h rfl
  unfold syllable_count
  rw [if_neg hw]
  cases hpl : problemLookup (cleanWord w) with
  | some n =>
    simp only [hpl]
    exact problemLookup_ne_zero _ _ hpl
  | none =>
    simp only [hpl, syllableRules]
    split_ifs with hb
    · exact one_ne_zero
    · exact hb

/-- Witness for the amended claim C3 at the word cat. -/
theorem syllable_count_nonzero_witness :
    cleanWord ("cat".data) ≠ [] ∧ syllable_count ("cat".data) ≠ 0 :=
  ⟨by decide, syllable_count_nonzero _ (by decide)⟩

/-- Claim C4, counterexample: the one-character word consisting of an
exclamation mark is non-empty, cleans to the empty word, and gets syllable
count 1, not the claimed 0: the zero-count clamp raises the empty cleaned
word to 1 because the early return only tests the original word. -/
theorem syllable_count_punct_not_zero :
    "!".data ≠ [] ∧ cleanWord ("!".data) = [] ∧
    syllable_count ("!".data) = 1 ∧ syllable_count ("!".data) ≠ 0 := by
  decide

/-- Claim C4, amended: syllable_count returns 0 for the empty word, but for
a non-empty word whose cleaned form is empty (an all-punctuation word) it
returns 1, because the rule pipeline yields 0 and the clamp raises it. -/
theorem syllable_count_empty_and_allpunct :
    syllable_count [] = 0 ∧
    ∀ w : List Char, w ≠ [] → cleanWord w = [] → syllable_count w = 1 := by
  refine ⟨rfl, fun w hw hc => ?_⟩
  unfold syllable_count
  rw [if_neg hw, hc]
  decide

/-- Witness for the amended claim C4 at the one-character word consisting of
a question mark. -/
theorem syllable_count_empty_and_allpunct_witness :
    "?".data ≠ [] ∧ cleanWord ("?".data) = [] ∧ syllable_count ("?".data) = 1 :=
  ⟨by decide, by decide, syllable_count_empty_and_allpunct.2 _ (by decide) (by decide)⟩

/-- Claim C5, counterexample: no text has zero words after splitting on
single spaces and count_complex_words never divides by zero — Python splitting
with an explicit separator always returns at least one piece; in particular a
text of three spaces splits into four empty words, not zero. -/
theorem no_empty_split_exists :
    (¬ ∃ t : List Char, (splitSp t).length = 0) ∧
    (¬ ∃ t : List Char, count_complex_words t = none) ∧
    (splitSp ("   ".data)).length = 4 := by
  refine ⟨?_, ?_, by decide⟩
  · rintro ⟨t, h⟩
    rw [splitSp_length] at h
    omega
  · rintro ⟨t, h⟩
    rw [count_complex_words_eq] at h
    exact Option.some_ne_none _ h

/-- Claim C5, amended: for every text the list produced by splitting on
single spaces has (number of spaces) plus one elements, hence is never empty,
and count_complex_words never divides by zero. -/
theorem split_never_empty_no_div_zero (t : List Char) :
    (splitSp t).length = (t.filter fun c => c == ' ').length + 1 ∧
    count_complex_words t ≠ none := by
  refine ⟨splitSp_length t, ?_⟩
  rw [count_complex_words_eq]
  exact Option.some_ne_none _

/-- Claim C6, counterexample: on the text "The cat sat." the source does not
return a score exactly equal to the decimal value 119.19.  Its constants are
Decimal applied to float literals, hence the nearest binary64 values of
206.835, 1.015 and 84.6, and the 28-digit Decimal arithmetic then yields
exactly 119.1900000000000139355194051. -/
theorem fkre_dec_not_exactly_119_19 :
    flesch_kincaid_reading_ease_dec ("The cat sat.".data) =
      some ⟨1191900000000000139355194051, 25⟩ ∧
    Dec.toRat ⟨1191900000000000139355194051, 25⟩ ≠ (119.19 : ℚ) := by
  refine ⟨by decide, ?_⟩
  norm_num [Dec.toRat]

/-- Claim C6, amended: on the text "The cat sat." the counts are words 3,
sentences 1, syllables 3; with the formula constants taken at their literal
decimal values the score is exactly 119.19, while the source's Decimal-of-
float constants give exactly 119.1900000000000139355194051, which is within
2 times 10 to the -14 of 119.19 but not equal to it. -/
theorem fkre_the_cat_sat :
    count_words ("The cat sat.".data) = 3 ∧
    count_sentences ("The cat sat.".data) = 1 ∧
    count_syllables ("The cat sat.".data) = 3 ∧
    flesch_kincaid_reading_ease ("The cat sat.".data) = some (119.19 : ℚ) ∧
    flesch_kincaid_reading_ease_dec ("The cat sat.".data) =
      some ⟨1191900000000000139355194051, 25⟩ := by
  have h3 : count_words ("The cat sat.".data) = 3 := by decide
  have h4 : count_sentences ("The cat sat.".data) = 1 := by decide
  have h5 : count_syllables ("The cat sat.".data) = 3 := by decide
  have hv : flesch_kincaid_reading_ease ("The cat sat.".data) = some (119.19 : ℚ) := by
    simp only [flesch_kincaid_reading_ease, clean_text, h3, h4, h5]
    norm_num [pydiv]
  exact ⟨h3, h4, h5, hv, by decide⟩

/-- Claim C7: count_sentences deletes the initials pattern and the literal
Mr-period abbreviation, counts the remaining terminator characters, floors
the count at 1 for non-empty text, returns 0 for empty text, and counts
exactly one sentence in the abbreviation example of the spec. -/
theorem count_sentences_spec :
    (∀ t : List Char, t ≠ [] →
      count_sentences t = max 1 ((removeMr (removeInitials t)).filter isTerm).length) ∧
    count_sentences [] = 0 ∧
    count_sentences ("Mr. Smith went to U.K. today.".data) = 1 := by
  refine ⟨fun t ht => ?_, rfl, by decide⟩
  simp [count_sentences, ht]

/-- Witness for claim C7 at a small non-empty text. -/
theorem count_sentences_spec_witness :
    "Hi.".data ≠ [] ∧
    count_sentences ("Hi.".data) =
      max 1 ((removeMr (removeInitials ("Hi.".data))).filter isTerm).length :=
  ⟨by decide, count_sentences_spec.1 _ (by decide)⟩

/-- Claim C8: count_words returns 1 plus the number of space characters for
non-empty text (so each space of a run counts) and 0 for empty text; on the
double-spaced text a-space-space-b it returns 3. -/
theorem count_words_spec :
    (∀ t : List Char, t ≠ [] → count_words t = 1 + (t.filter fun c => c == ' ').length) ∧
    count_words [] = 0 ∧
    count_words ("a  b".data) = 3 := by
  refine ⟨fun t ht => ?_, rfl, by decide⟩
  simp [count_words, ht]

/-- Witness for claim C8 at a small non-empty text. -/
theorem count_words_spec_witness :
    "a b".data ≠ [] ∧
    count_words ("a b".data) = 1 + (("a b".data).filter fun c => c == ' ').length :=
  ⟨by decide, count_words_spec.1 _ (by decide)⟩

/-- Claim C9: average_words_per_sentence signals the unsupported-operation
error Not implemented on every input and never returns a score. -/
theorem average_words_per_sentence_always_errors :
    ∀ t : List Char, average_words_per_sentence t = Except.error "Not implemented" ∧
      ∀ q : ℚ, average_words_per_sentence t ≠ Except.ok q := by
  intro t
  exact ⟨rfl, fun q h => by simp [average_words_per_sentence] at h⟩

/-- Claim C10: for every text, including the empty text and all-space texts,
the space-split word list is non-empty, so count_complex_words never divides
by zero and returns a ratio in the closed unit interval. -/
theorem count_complex_words_total_in_unit_interval (t : List Char) :
    ∃ q : ℚ, count_complex_words t = some q ∧ 0 ≤ q ∧ q ≤ 1 := by
  refine ⟨_, count_complex_words_eq t, ?_, ?_⟩
  · exact div_nonneg (Nat.cast_nonneg _) (Nat.cast_nonneg _)
  · have hlen : 0 < (splitSp t).length := by
      rw [splitSp_length]; omega
    rw [div_le_one (by exact_mod_cast hlen)]
    exact_mod_cast List.length_filter_le _ _

end TextStatistics
